import Mathlib

/-!
# Verification development for `example/src/example.c`

The probe `on_sys_enter` of the eBPF example is embedded as a pure function
over an explicit world state: the log of helper calls, the lines delivered to
the trace stream and the two metadata objects.

The two kernel helpers the probe calls, `bpf_get_current_pid_tgid` and
`bpf_trace_printk`, are declared in `bpf_helpers.h` and implemented by the
kernel; neither is part of the repository.  The first is the packed value
supplied by the environment of an invocation.  The second is modelled after
the helper's behaviour on a 64-bit kernel: the format must end in a NUL at
index `fmt_size - 1`, may hold up to three integer conversions, and a
conversion without an `l` modifier, such as `%d`, converts the low 32 bits of
its 64-bit argument register.  Whether the trace stream takes the line, and
what the helper returns when it does not, is left to the environment.
-/

set_option maxRecDepth 20000

namespace Example

/-! ## Machine integers -/

/-- Value of a 64-bit register read as `unsigned long long`. -/
def toU64 (z : Int) : Nat := (z % 2 ^ 64).toNat

/-- Value of the low `bits` bits of `v` read as a two's complement integer. -/
def toSigned (bits : Nat) (v : Nat) : Int :=
  if v % 2 ^ bits < 2 ^ (bits - 1) then (v % 2 ^ bits : Nat) else (v % 2 ^ bits : Nat) - 2 ^ bits

/-! ## `struct sys_enter_args` -/

/-- The context `struct sys_enter_args`: `unsigned long long unused`,
`long id`, `unsigned long args[6]`. -/
structure sys_enter_args where
  unused : Nat
  id : Int
  args : List Nat
  deriving Repr, DecidableEq

/-- A context holds machine values: every word fits its declared C type. -/
def sys_enter_args.wf (ctx : sys_enter_args) : Prop :=
  ctx.unused < 2 ^ 64 ∧ (-(2 : Int) ^ 63 ≤ ctx.id ∧ ctx.id < 2 ^ 63) ∧
    ctx.args.length = 6 ∧ ∀ a ∈ ctx.args, a < 2 ^ 64

instance (ctx : sys_enter_args) : Decidable ctx.wf := by
  unfold sys_enter_args.wf
  infer_instance

/-- One member of a C struct declaration: name, size and alignment in bytes. -/
structure Member where
  name : String
  size : Nat
  align : Nat
  deriving Repr, DecidableEq

/-- Members of `struct sys_enter_args` on the 64-bit BPF target, in declaration
order: `unsigned long long` and `long` are 8 bytes, `unsigned long [6]` is
six 8-byte words. -/
def sys_enter_args_members : List Member :=
  [⟨"unused", 8, 8⟩, ⟨"id", 8, 8⟩, ⟨"args", 6 * 8, 8⟩]

/-- Round `n` up to a multiple of `a`. -/
def alignUp (n a : Nat) : Nat := (n + a - 1) / a * a

/-- C struct layout: each member is placed at the next offset that satisfies its
alignment.  Returns every member with its offset and its size. -/
def layoutFrom : Nat → List Member → List (String × Nat × Nat)
  | _, [] => []
  | off, m :: ms =>
    let o := alignUp off m.align
    (m.name, o, m.size) :: layoutFrom (o + m.size) ms

/-- Byte offset of the member called `n` (`offsetof`). -/
def offsetof (ms : List Member) (n : String) : Option Nat :=
  ((layoutFrom 0 ms).find? (fun e => e.1 == n)).map (fun e => e.2.1)

/-- Size in bytes of the member called `n`. -/
def member_size (ms : List Member) (n : String) : Option Nat :=
  ((layoutFrom 0 ms).find? (fun e => e.1 == n)).map (fun e => e.2.2)

/-- The `sizeof` of a struct: end of the last member rounded up to the largest
alignment. -/
def sizeof_struct (ms : List Member) : Nat :=
  alignUp ((layoutFrom 0 ms).foldl (fun _ e => e.2.1 + e.2.2) 0)
    (ms.foldl (fun a m => max a m.align) 1)

/-! ## World state and kernel helpers -/

/-- One invocation of the helper `bpf_trace_printk`, as seen by the kernel:
the bytes of the format buffer, the size argument and the two argument
registers. -/
structure TraceCall where
  fmt : List Char
  fmt_size : Nat
  args : List Nat
  deriving Repr, DecidableEq

/-- The state outside one invocation: the log of every call of
`bpf_trace_printk` made so far, the lines delivered to the trace stream, and
the contents of the two metadata objects placed in the `license` and
`version` sections. -/
structure World where
  calls : List TraceCall
  trace_pipe : List (List Char)
  license : List Char
  version : Nat
  deriving Repr, DecidableEq

/-- State of the trace channel during one invocation: it takes the line, or it
rejects the write and the helper returns `res`. -/
inductive Channel where
  | ready
  | saturated (res : Int)
  deriving Repr, DecidableEq

/-- The kernel as one invocation sees it: the packed value of the current
task and the state of the trace channel. -/
structure Kernel where
  pid_tgid : Nat
  channel : Channel
  deriving Repr, DecidableEq

/-- Kernel helper `bpf_get_current_pid_tgid()`: returns an unsigned 64-bit
value, `tgid << 32 | pid`, here the value supplied by the environment. -/
def bpf_get_current_pid_tgid (k : Kernel) : Nat := k.pid_tgid % 2 ^ 64

/-- Conversion of one 64-bit argument register by `bpf_trace_printk` on a
64-bit kernel: without an `l` modifier the argument is cast to `u32` and read
by the conversion as an `int` or `unsigned int`, with `l` or `ll` all 64 bits
are read; `d` and `i` are signed decimal, `u` unsigned decimal, `x`
hexadecimal. -/
def conv_arg (mod : Nat) (c : Char) (arg : Nat) : List Char :=
  let bits := if mod = 0 then 32 else 64
  if c = 'd' ∨ c = 'i' then (toString (toSigned bits arg)).toList
  else if c = 'u' then (toString (arg % 2 ^ bits)).toList
  else Nat.toDigits 16 (arg % 2 ^ bits)

/-- Scanner state of the format interpreter. -/
inductive Scan where
  | text
  | pct (mod : Nat)
  deriving Repr, DecidableEq

/-- Format interpreter of `bpf_trace_printk`: printable ASCII and white space
are copied, a `%` starts a conversion with up to two `l` modifiers and one
of `d i u x`, at most three conversions are allowed, and the `cnt`-th
conversion takes the `cnt`-th argument register; anything else is rejected.
The conversions `%p` and `%s`, which the probe does not use, are not
modelled and count as rejected. -/
def bpf_format : Scan → List Char → List Nat → Nat → Option (List Char)
  | .text, [], _, _ => some []
  | .text, c :: cs, args, cnt =>
    if c = '%' then
      if 3 ≤ cnt then none else bpf_format (.pct 0) cs args cnt
    else if 32 ≤ c.toNat ∧ c.toNat < 127 ∨ 9 ≤ c.toNat ∧ c.toNat ≤ 13 then
      (bpf_format .text cs args cnt).map (fun l => c :: l)
    else none
  | .pct _, [], _, _ => none
  | .pct m, c :: cs, args, cnt =>
    if c = 'l' then
      if m < 2 then bpf_format (.pct (m + 1)) cs args cnt else none
    else if c = 'd' ∨ c = 'i' ∨ c = 'u' ∨ c = 'x' then
      (bpf_format .text cs args (cnt + 1)).map (fun l => conv_arg m c (args.getD cnt 0) ++ l)
    else none

/-- Error code returned by the helper for a malformed format. -/
def EINVAL : Int := 22

/-- Kernel helper `bpf_trace_printk(fmt, fmt_size, arg1, arg2)`.  Every call
is entered in the log `calls`.  The byte at `fmt_size - 1` must be NUL and
the bytes before it are interpreted by `bpf_format`, otherwise the helper
returns `-EINVAL`; the line goes to the trace stream when the channel takes
it, and then the helper returns its length.  Returns the helper's result
and the new world. -/
def bpf_trace_printk (k : Kernel) (fmt : List Char) (fmt_size : Nat) (args : List Nat)
    (w : World) : Int × World :=
  let w1 := { w with calls := w.calls ++ [⟨fmt, fmt_size, args⟩] }
  if fmt_size = 0 ∨ fmt.get? (fmt_size - 1) ≠ some '\x00' then (-EINVAL, w1)
  else
    match bpf_format .text (fmt.take (fmt_size - 1)) args 0 with
    | none => (-EINVAL, w1)
    | some line =>
      match k.channel with
      | .ready => (line.length, { w1 with trace_pipe := w1.trace_pipe ++ [line] })
      | .saturated res => (res, w1)

/-! ## The program -/

/-- Macro `PRINT(fmt, ...)`: copies the literal into the local array
`char ____fmt[] = fmt` (the characters and a terminating NUL) and calls
`bpf_trace_printk(____fmt, sizeof(____fmt), ...)`. -/
def PRINT (k : Kernel) (fmt : String) (args : List Nat) (w : World) : Int × World :=
  let ____fmt : List Char := fmt.toList ++ ['\x00']
  bpf_trace_printk k ____fmt ____fmt.length args w

/-- The probe `int on_sys_enter(struct sys_enter_args *ctx)`. -/
def on_sys_enter (k : Kernel) (ctx : sys_enter_args) (w : World) : Int × World :=
  let pid : Nat := bpf_get_current_pid_tgid k >>> 32
  let r := PRINT k "process %d executed syscall %d" [pid, toU64 ctx.id] w
  (0, r.2)

/-- Initialiser of `char _license[] SEC("license") = "GPL"`. -/
def _license : List Char := "GPL".toList ++ ['\x00']

/-- Initialiser of `unsigned int _version SEC("version") = 0xFFFFFFFE`. -/
def _version : Nat := 0xFFFFFFFE % 2 ^ 32

/-- The world right after the object is loaded, with the given trace history. -/
def World.load (calls : List TraceCall) (pipe : List (List Char)) : World :=
  ⟨calls, pipe, _license, _version⟩

/-- A sequence of syscall-entry events, each with its own kernel environment. -/
def run : List (Kernel × sys_enter_args) → World → World
  | [], w => w
  | (k, ctx) :: es, w => run es (on_sys_enter k ctx w).2

/-! ## Observations of one invocation -/

/-- Helper calls made by the invocation started in world `w`. -/
def new_calls (k : Kernel) (ctx : sys_enter_args) (w : World) : List TraceCall :=
  (on_sys_enter k ctx w).2.calls.drop w.calls.length

/-- Lines delivered to the trace stream by the invocation started in `w`. -/
def new_lines (k : Kernel) (ctx : sys_enter_args) (w : World) : List (List Char) :=
  (on_sys_enter k ctx w).2.trace_pipe.drop w.trace_pipe.length

/-- Process-id substitution of the record: first argument of the helper call. -/
def pid_field (k : Kernel) (ctx : sys_enter_args) (w : World) : Option Nat :=
  (new_calls k ctx w).head?.bind (fun c => c.args.get? 0)

/-- Syscall-id substitution of the record: second argument of the helper call. -/
def syscall_field (k : Kernel) (ctx : sys_enter_args) (w : World) : Option Nat :=
  (new_calls k ctx w).head?.bind (fun c => c.args.get? 1)

/-! ## Reference notions used to state the properties -/

/-- Decimal rendering of an integer, with a leading `-` for negatives. -/
def decimal (z : Int) : List Char := (toString z).toList

/-- The line as the wire format describes it: `process <pid> executed syscall
<id>` with both numbers in decimal. -/
def expected_line (pid : Nat) (id : Int) : List Char :=
  "process ".toList ++ decimal pid ++ " executed syscall ".toList ++ decimal id

/-- Arithmetic (sign-propagating) right shift of a 64-bit pattern. -/
def arith_shift_right_64 (p : Nat) (n : Nat) : Int := toSigned 64 p >>> n

/-! ## Basic facts -/

theorem PRINT_template (k : Kernel) (a b : Nat) (w : World) :
    PRINT k "process %d executed syscall %d" [a, b] w =
      match k.channel with
      | .ready =>
        ((("process ".toList ++ conv_arg 0 'd' a ++
            (" executed syscall ".toList ++ conv_arg 0 'd' b)).length : Nat),
          { w with
            calls := w.calls ++
              [⟨"process %d executed syscall %d".toList ++ ['\x00'], 31, [a, b]⟩],
            trace_pipe := w.trace_pipe ++ ["process ".toList ++ conv_arg 0 'd' a ++
              (" executed syscall ".toList ++ conv_arg 0 'd' b)] })
      | .saturated res =>
        (res, { w with
            calls := w.calls ++
              [⟨"process %d executed syscall %d".toList ++ ['\x00'], 31, [a, b]⟩] }) := by
  unfold PRINT bpf_trace_printk
  simp [bpf_format]

theorem on_sys_enter_calls (k : Kernel) (ctx : sys_enter_args) (w : World) :
    (on_sys_enter k ctx w).2.calls = w.calls ++
      [⟨"process %d executed syscall %d".toList ++ ['\x00'], 31,
        [bpf_get_current_pid_tgid k / 2 ^ 32, toU64 ctx.id]⟩] := by
  unfold on_sys_enter
  simp only [PRINT_template, Nat.shiftRight_eq_div_pow]
  cases k.channel <;> rfl

theorem on_sys_enter_pipe_ready (k : Kernel) (ctx : sys_enter_args) (w : World)
    (h : k.channel = .ready) :
    (on_sys_enter k ctx w).2.trace_pipe = w.trace_pipe ++
      ["process ".toList ++ conv_arg 0 'd' (bpf_get_current_pid_tgid k / 2 ^ 32) ++
        (" executed syscall ".toList ++ conv_arg 0 'd' (toU64 ctx.id))] := by
  unfold on_sys_enter
  simp only [PRINT_template, Nat.shiftRight_eq_div_pow, h]

theorem on_sys_enter_pipe_saturated (k : Kernel) (ctx : sys_enter_args) (w : World)
    (res : Int) (h : k.channel = .saturated res) :
    (on_sys_enter k ctx w).2.trace_pipe = w.trace_pipe := by
  unfold on_sys_enter
  simp only [PRINT_template, h]

theorem on_sys_enter_sections (k : Kernel) (ctx : sys_enter_args) (w : World) :
    (on_sys_enter k ctx w).2.license = w.license ∧
      (on_sys_enter k ctx w).2.version = w.version := by
  unfold on_sys_enter
  simp only [PRINT_template]
  cases k.channel <;> exact ⟨rfl, rfl⟩

theorem new_calls_eq (k : Kernel) (ctx : sys_enter_args) (w : World) :
    new_calls k ctx w =
      [⟨"process %d executed syscall %d".toList ++ ['\x00'], 31,
        [bpf_get_current_pid_tgid k / 2 ^ 32, toU64 ctx.id]⟩] := by
  unfold new_calls
  rw [on_sys_enter_calls]
  simp

theorem new_lines_ready (k : Kernel) (ctx : sys_enter_args) (w : World)
    (h : k.channel = .ready) :
    new_lines k ctx w =
      ["process ".toList ++ conv_arg 0 'd' (bpf_get_current_pid_tgid k / 2 ^ 32) ++
        (" executed syscall ".toList ++ conv_arg 0 'd' (toU64 ctx.id))] := by
  unfold new_lines
  rw [on_sys_enter_pipe_ready k ctx w h]
  simp

theorem new_lines_saturated (k : Kernel) (ctx : sys_enter_args) (w : World)
    (res : Int) (h : k.channel = .saturated res) :
    new_lines k ctx w = [] := by
  unfold new_lines
  rw [on_sys_enter_pipe_saturated k ctx w res h]
  simp

theorem toSigned_32_of_lt (v : Nat) (h : v < 2 ^ 31) : toSigned 32 v = v := by
  unfold toSigned
  split <;> omega

theorem toSigned_32_toU64 (z : Int) (h : -(2 : Int) ^ 31 ≤ z ∧ z < 2 ^ 31) :
    toSigned 32 (toU64 z) = z := by
  unfold toSigned toU64
  split <;> omega

theorem toSigned_64_toU64 (z : Int) (h : -(2 : Int) ^ 63 ≤ z ∧ z < 2 ^ 63) :
    toSigned 64 (toU64 z) = z := by
  unfold toSigned toU64
  split <;> omega

theorem conv_d_32 (v : Nat) : conv_arg 0 'd' v = decimal (toSigned 32 v) := by
  simp [conv_arg, decimal]

theorem run_sections (evs : List (Kernel × sys_enter_args)) (w : World) :
    (run evs w).license = w.license ∧ (run evs w).version = w.version := by
  induction evs generalizing w with
  | nil => exact ⟨rfl, rfl⟩
  | cons e es ih =>
    obtain ⟨k, ctx⟩ := e
    have h := on_sys_enter_sections k ctx w
    have h2 := ih (on_sys_enter k ctx w).2
    exact ⟨h2.1.trans h.1, h2.2.trans h.2⟩

/-! ## The return value -/

/-- C1: for every context, packed value and outcome of the trace write,
`on_sys_enter` returns 0; when the helper returns an arbitrary failure
result `res` to `PRINT`, the probe still returns 0. -/
theorem on_sys_enter_returns_zero (p : Nat) (ch : Channel) (ctx : sys_enter_args)
    (w : World) :
    (on_sys_enter ⟨p, ch⟩ ctx w).1 = 0 ∧
    ∀ res : Int,
      (PRINT ⟨p, .saturated res⟩ "process %d executed syscall %d"
          [bpf_get_current_pid_tgid ⟨p, .saturated res⟩ >>> 32, toU64 ctx.id] w).1 = res ∧
      (on_sys_enter ⟨p, .saturated res⟩ ctx w).1 = 0 := by
  refine ⟨rfl, fun res => ⟨?_, rfl⟩⟩
  rw [PRINT_template]

/-! ## The process id -/

/-- C2: for every 64-bit packed value `p`, the process-id field of the record
is `p / 2 ^ 32`, it stays the same whatever the low 32 bits are, and
`0x0000271000000005` gives 10000. -/
theorem pid_field_upper_32 (p : Nat) (hp : p < 2 ^ 64) (ch : Channel)
    (ctx : sys_enter_args) (w : World) :
    pid_field ⟨p, ch⟩ ctx w = some (p / 2 ^ 32) ∧
    (∀ tid : Nat, tid < 2 ^ 32 →
      pid_field ⟨p / 2 ^ 32 * 2 ^ 32 + tid, ch⟩ ctx w = some (p / 2 ^ 32)) ∧
    pid_field ⟨0x0000271000000005, ch⟩ ctx w = some 10000 := by
  refine ⟨?_, ?_, ?_⟩
  · simp only [pid_field, new_calls_eq, bpf_get_current_pid_tgid]
    rw [Nat.mod_eq_of_lt hp]
    rfl
  · intro tid htid
    simp only [pid_field, new_calls_eq, bpf_get_current_pid_tgid]
    have h1 : p / 2 ^ 32 * 2 ^ 32 + tid < 2 ^ 64 := by omega
    rw [Nat.mod_eq_of_lt h1]
    have h2 : (p / 2 ^ 32 * 2 ^ 32 + tid) / 2 ^ 32 = p / 2 ^ 32 := by omega
    rw [h2]
    rfl
  · simp only [pid_field, new_calls_eq, bpf_get_current_pid_tgid]
    rfl

/-- Instance of C2 at the packed value `0x0000271000000005`. -/
theorem pid_field_upper_32_witness :
    0x0000271000000005 < 2 ^ 64 ∧
    (pid_field ⟨0x0000271000000005, .ready⟩ ⟨0, 0, [0, 0, 0, 0, 0, 0]⟩ (World.load [] []) =
        some (0x0000271000000005 / 2 ^ 32) ∧
      (∀ tid : Nat, tid < 2 ^ 32 →
        pid_field ⟨0x0000271000000005 / 2 ^ 32 * 2 ^ 32 + tid, .ready⟩
          ⟨0, 0, [0, 0, 0, 0, 0, 0]⟩ (World.load [] []) =
          some (0x0000271000000005 / 2 ^ 32)) ∧
      pid_field ⟨0x0000271000000005, .ready⟩ ⟨0, 0, [0, 0, 0, 0, 0, 0]⟩ (World.load [] []) =
        some 10000) :=
  ⟨by decide, pid_field_upper_32 0x0000271000000005 (by decide) .ready
    ⟨0, 0, [0, 0, 0, 0, 0, 0]⟩ (World.load [] [])⟩

/-- C5 (as stated, refuted): for the packed value `2 ^ 63` the probe computes
the process id 2147483648, while the arithmetic right shift by 32 is
-2147483648, whose 64-bit pattern is 18446744071562067968. -/
theorem pid_not_arithmetic_shift :
    pid_field ⟨2 ^ 63, .ready⟩ ⟨0, 0, [0, 0, 0, 0, 0, 0]⟩ (World.load [] []) =
      some 2147483648 ∧
    arith_shift_right_64 (2 ^ 63) 32 = -2147483648 ∧
    toU64 (arith_shift_right_64 (2 ^ 63) 32) = 18446744071562067968 ∧
    pid_field ⟨2 ^ 63, .ready⟩ ⟨0, 0, [0, 0, 0, 0, 0, 0]⟩ (World.load [] []) ≠
      some (toU64 (arith_shift_right_64 (2 ^ 63) 32)) := by
  have h : pid_field ⟨2 ^ 63, .ready⟩ ⟨0, 0, [0, 0, 0, 0, 0, 0]⟩ (World.load [] []) =
      some 2147483648 := by
    simp only [pid_field, new_calls_eq, bpf_get_current_pid_tgid]
    rfl
  have h2 : arith_shift_right_64 (2 ^ 63) 32 = -2147483648 := by decide
  refine ⟨h, h2, ?_, ?_⟩
  · rw [h2]; decide
  · rw [h, h2]; decide

/-- C5 (amended): the process id is the logical, zero-filling right shift of
the unsigned packed value by 32 bits; it is below `2 ^ 32`, equals the
arithmetic shift when the top bit of `p` is clear, and exceeds it by `2 ^ 32`
when the top bit is set. -/
theorem pid_logical_shift (p : Nat) (hp : p < 2 ^ 64) (ch : Channel)
    (ctx : sys_enter_args) (w : World) :
    pid_field ⟨p, ch⟩ ctx w = some (p >>> 32) ∧
    p >>> 32 < 2 ^ 32 ∧
    (p < 2 ^ 63 → ((p >>> 32 : Nat) : Int) = arith_shift_right_64 p 32) ∧
    (2 ^ 63 ≤ p → ((p >>> 32 : Nat) : Int) = arith_shift_right_64 p 32 + 2 ^ 32) := by
  have hs : p >>> 32 = p / 2 ^ 32 := Nat.shiftRight_eq_div_pow p 32
  refine ⟨?_, ?_, ?_, ?_⟩
  · simp only [pid_field, new_calls_eq, bpf_get_current_pid_tgid]
    rw [Nat.mod_eq_of_lt hp, hs]
    rfl
  · omega
  · intro h
    unfold arith_shift_right_64 toSigned
    rw [Int.shiftRight_eq_div_pow, hs]
    split <;> omega
  · intro h
    unfold arith_shift_right_64 toSigned
    rw [Int.shiftRight_eq_div_pow, hs]
    split <;> omega

/-- Instance of the amended C5 at the packed value `0x0000271000000005`. -/
theorem pid_logical_shift_witness :
    0x0000271000000005 < 2 ^ 64 ∧
    (pid_field ⟨0x0000271000000005, .ready⟩ ⟨0, 0, [0, 0, 0, 0, 0, 0]⟩ (World.load [] []) =
        some (0x0000271000000005 >>> 32) ∧
      0x0000271000000005 >>> 32 < 2 ^ 32 ∧
      (0x0000271000000005 < 2 ^ 63 →
        ((0x0000271000000005 >>> 32 : Nat) : Int) =
          arith_shift_right_64 0x0000271000000005 32) ∧
      (2 ^ 63 ≤ 0x0000271000000005 →
        ((0x0000271000000005 >>> 32 : Nat) : Int) =
          arith_shift_right_64 0x0000271000000005 32 + 2 ^ 32)) :=
  ⟨by decide, pid_logical_shift 0x0000271000000005 (by decide) .ready
    ⟨0, 0, [0, 0, 0, 0, 0, 0]⟩ (World.load [] [])⟩

/-! ## The emitted line -/

/-- C3 (as stated, refuted): with process id 1234 and syscall id `2 ^ 32` the
line is `process 1234 executed syscall 0`, not the line with the decimal
syscall id; with process id `2 ^ 31` the line shows `-2147483648`. -/
theorem emitted_line_not_full_decimal :
    (new_lines ⟨1234 * 2 ^ 32 + 5, .ready⟩ ⟨0, 4294967296, [0, 0, 0, 0, 0, 0]⟩
        (World.load [] []) = ["process 1234 executed syscall 0".toList] ∧
      expected_line 1234 4294967296 = "process 1234 executed syscall 4294967296".toList ∧
      new_lines ⟨1234 * 2 ^ 32 + 5, .ready⟩ ⟨0, 4294967296, [0, 0, 0, 0, 0, 0]⟩
        (World.load [] []) ≠ [expected_line 1234 4294967296]) ∧
    (new_lines ⟨2 ^ 63, .ready⟩ ⟨0, 0, [0, 0, 0, 0, 0, 0]⟩ (World.load [] []) =
        ["process -2147483648 executed syscall 0".toList] ∧
      expected_line 2147483648 0 = "process 2147483648 executed syscall 0".toList ∧
      new_lines ⟨2 ^ 63, .ready⟩ ⟨0, 0, [0, 0, 0, 0, 0, 0]⟩ (World.load [] []) ≠
        [expected_line 2147483648 0]) := by
  have e1 : expected_line 1234 4294967296 =
      "process 1234 executed syscall 4294967296".toList := by decide
  have e2 : expected_line 2147483648 0 =
      "process 2147483648 executed syscall 0".toList := by decide
  have l1 : new_lines ⟨1234 * 2 ^ 32 + 5, .ready⟩ ⟨0, 4294967296, [0, 0, 0, 0, 0, 0]⟩
      (World.load [] []) = ["process 1234 executed syscall 0".toList] := by
    rw [new_lines_ready _ _ _ rfl]
    decide
  have l2 : new_lines ⟨2 ^ 63, .ready⟩ ⟨0, 0, [0, 0, 0, 0, 0, 0]⟩ (World.load [] []) =
      ["process -2147483648 executed syscall 0".toList] := by
    rw [new_lines_ready _ _ _ rfl]
    decide
  refine ⟨⟨l1, e1, ?_⟩, ⟨l2, e2, ?_⟩⟩
  · rw [l1, e1]; decide
  · rw [l2, e2]; decide

/-- C3 (amended): when the channel takes the write and the syscall id lies in
the signed 32-bit range, the line is exactly `process `, the decimal process
id read as a signed 32-bit integer, ` executed syscall `, the decimal
syscall id, in this order and with nothing else; for a process id below
`2 ^ 31` this is the decimal process id itself, and process id 1234 with
syscall id 0 gives `process 1234 executed syscall 0`. -/
theorem emitted_line_format (p : Nat) (hp : p < 2 ^ 64) (ctx : sys_enter_args)
    (w : World) (hid : -(2 : Int) ^ 31 ≤ ctx.id ∧ ctx.id < 2 ^ 31) :
    new_lines ⟨p, .ready⟩ ctx w =
      ["process ".toList ++ decimal (toSigned 32 (p / 2 ^ 32)) ++
        " executed syscall ".toList ++ decimal ctx.id] ∧
    (p / 2 ^ 32 < 2 ^ 31 →
      new_lines ⟨p, .ready⟩ ctx w = [expected_line (p / 2 ^ 32) ctx.id]) ∧
    (p / 2 ^ 32 = 1234 → ctx.id = 0 →
      new_lines ⟨p, .ready⟩ ctx w = ["process 1234 executed syscall 0".toList]) := by
  have hl : new_lines ⟨p, .ready⟩ ctx w =
      ["process ".toList ++ decimal (toSigned 32 (p / 2 ^ 32)) ++
        " executed syscall ".toList ++ decimal ctx.id] := by
    rw [new_lines_ready _ _ _ rfl, conv_d_32, conv_d_32, toSigned_32_toU64 _ hid]
    simp only [bpf_get_current_pid_tgid, Nat.mod_eq_of_lt hp, List.append_assoc]
  refine ⟨hl, ?_, ?_⟩
  · intro h
    rw [hl, toSigned_32_of_lt _ h]
    rfl
  · intro h h0
    rw [hl, h, h0]
    decide

/-- Instance of the amended C3 at process id 1234, thread id 5, syscall id 0. -/
theorem emitted_line_format_witness :
    (1234 * 2 ^ 32 + 5 < 2 ^ 64 ∧ (-(2 : Int) ^ 31 ≤ 0 ∧ (0 : Int) < 2 ^ 31)) ∧
    new_lines ⟨1234 * 2 ^ 32 + 5, .ready⟩ ⟨0, 0, [0, 0, 0, 0, 0, 0]⟩ (World.load [] []) =
      ["process 1234 executed syscall 0".toList] :=
  ⟨⟨by decide, by decide⟩,
    (emitted_line_format (1234 * 2 ^ 32 + 5) (by decide) ⟨0, 0, [0, 0, 0, 0, 0, 0]⟩
      (World.load [] []) (by decide)).2.2 (by decide) rfl⟩

/-- C4 (evaluation at the boundary ids): the helper receives the full 64-bit
syscall id, but the `%d` conversion of the template shows only its low 32
bits: the maximum `2 ^ 63 - 1` is printed as `-1` and the minimum `-2 ^ 63`
as `0`. -/
theorem syscall_id_boundary_lines :
    (syscall_field ⟨1234 * 2 ^ 32 + 5, .ready⟩ ⟨0, 9223372036854775807, [0, 0, 0, 0, 0, 0]⟩
        (World.load [] []) = some 9223372036854775807 ∧
      new_lines ⟨1234 * 2 ^ 32 + 5, .ready⟩ ⟨0, 9223372036854775807, [0, 0, 0, 0, 0, 0]⟩
        (World.load [] []) = ["process 1234 executed syscall -1".toList] ∧
      decimal 9223372036854775807 = "9223372036854775807".toList) ∧
    (syscall_field ⟨1234 * 2 ^ 32 + 5, .ready⟩ ⟨0, -9223372036854775808, [0, 0, 0, 0, 0, 0]⟩
        (World.load [] []) = some (toU64 (-9223372036854775808)) ∧
      toSigned 64 (toU64 (-9223372036854775808)) = -9223372036854775808 ∧
      new_lines ⟨1234 * 2 ^ 32 + 5, .ready⟩ ⟨0, -9223372036854775808, [0, 0, 0, 0, 0, 0]⟩
        (World.load [] []) = ["process 1234 executed syscall 0".toList] ∧
      decimal (-9223372036854775808) = "-9223372036854775808".toList) := by
  refine ⟨⟨?_, ?_, by decide⟩, ⟨?_, by decide, ?_, by decide⟩⟩
  · simp only [syscall_field, new_calls_eq]
    decide
  · rw [new_lines_ready _ _ _ rfl]
    decide
  · simp only [syscall_field, new_calls_eq]
    rfl
  · rw [new_lines_ready _ _ _ rfl]
    decide

/-! ## Invocations in sequence -/

/-- C6: after any first invocation, the status, the helper call and the lines
of a second invocation on `(c2, k2)` are those of a lone invocation on the
same inputs started in any world. -/
theorem second_invocation_independent (k1 k2 : Kernel) (c1 c2 : sys_enter_args)
    (w w0 : World) :
    (on_sys_enter k2 c2 (on_sys_enter k1 c1 w).2).1 = (on_sys_enter k2 c2 w0).1 ∧
    new_calls k2 c2 (on_sys_enter k1 c1 w).2 = new_calls k2 c2 w0 ∧
    new_lines k2 c2 (on_sys_enter k1 c1 w).2 = new_lines k2 c2 w0 := by
  refine ⟨rfl, ?_, ?_⟩
  · rw [new_calls_eq, new_calls_eq]
  · cases h : k2.channel with
    | ready => rw [new_lines_ready _ _ _ h, new_lines_ready _ _ _ h]
    | saturated res => rw [new_lines_saturated _ _ _ res h, new_lines_saturated _ _ _ res h]

/-- C7: one invocation adds exactly one call of `bpf_trace_printk` to the log,
whatever the channel does; it delivers at most one line, and when the write
is rejected with any result the stream is left as it was and the probe
still returns 0. -/
theorem exactly_one_trace_call (k : Kernel) (ctx : sys_enter_args) (w : World) :
    (on_sys_enter k ctx w).2.calls.length = w.calls.length + 1 ∧
    (new_calls k ctx w).length = 1 ∧
    (new_lines k ctx w).length ≤ 1 ∧
    (∀ res : Int, k.channel = .saturated res →
      (on_sys_enter k ctx w).2.trace_pipe = w.trace_pipe ∧ new_lines k ctx w = [] ∧
        (on_sys_enter k ctx w).1 = 0) := by
  refine ⟨?_, ?_, ?_, ?_⟩
  · rw [on_sys_enter_calls]
    simp
  · rw [new_calls_eq]
    rfl
  · cases h : k.channel with
    | ready => rw [new_lines_ready _ _ _ h]; simp
    | saturated res => rw [new_lines_saturated _ _ _ res h]; simp
  · intro res h
    exact ⟨on_sys_enter_pipe_saturated k ctx w res h, new_lines_saturated k ctx w res h, rfl⟩

/-- Instance of C7 with a channel that rejects the write with result -1. -/
theorem exactly_one_trace_call_witness :
    (⟨1234 * 2 ^ 32 + 5, .saturated (-1)⟩ : Kernel).channel = .saturated (-1) ∧
    (on_sys_enter ⟨1234 * 2 ^ 32 + 5, .saturated (-1)⟩ ⟨0, 0, [0, 0, 0, 0, 0, 0]⟩
        (World.load [] [])).2.trace_pipe = (World.load [] []).trace_pipe ∧
    new_lines ⟨1234 * 2 ^ 32 + 5, .saturated (-1)⟩ ⟨0, 0, [0, 0, 0, 0, 0, 0]⟩
        (World.load [] []) = [] ∧
    (on_sys_enter ⟨1234 * 2 ^ 32 + 5, .saturated (-1)⟩ ⟨0, 0, [0, 0, 0, 0, 0, 0]⟩
        (World.load [] [])).1 = 0 :=
  ⟨rfl, (exactly_one_trace_call ⟨1234 * 2 ^ 32 + 5, .saturated (-1)⟩
    ⟨0, 0, [0, 0, 0, 0, 0, 0]⟩ (World.load [] [])).2.2.2 (-1) rfl⟩

/-! ## The context -/

/-- C8: in `struct sys_enter_args` the preamble is 8 bytes at offset 0, the id
is 8 bytes at offset 8, the arguments are 48 bytes at offset 16 and the
struct is 64 bytes; the syscall id put into the record is the id field (as
a 64-bit register that reads back, signed, as the field), and the whole
result of the probe is the same when only the preamble or the argument
words differ. -/
theorem sys_enter_args_layout_and_id (k : Kernel) (ctx : sys_enter_args) (w : World) :
    (offsetof sys_enter_args_members "unused" = some 0 ∧
      member_size sys_enter_args_members "unused" = some 8 ∧
      offsetof sys_enter_args_members "id" = some 8 ∧
      member_size sys_enter_args_members "id" = some 8 ∧
      offsetof sys_enter_args_members "args" = some 16 ∧
      member_size sys_enter_args_members "args" = some (6 * 8) ∧
      sizeof_struct sys_enter_args_members = 64) ∧
    syscall_field k ctx w = some (toU64 ctx.id) ∧
    (ctx.wf → toSigned 64 (toU64 ctx.id) = ctx.id) ∧
    (∀ (unused : Nat) (args : List Nat),
      on_sys_enter k ⟨unused, ctx.id, args⟩ w = on_sys_enter k ctx w ∧
      syscall_field k ⟨unused, ctx.id, args⟩ w = syscall_field k ctx w) := by
  refine ⟨by decide, ?_, ?_, ?_⟩
  · simp only [syscall_field, new_calls_eq]
    rfl
  · intro h
    exact toSigned_64_toU64 ctx.id h.2.1
  · intro unused args
    refine ⟨rfl, ?_⟩
    simp only [syscall_field, new_calls_eq]

/-- Instance of C8 at a context with syscall id -1. -/
theorem sys_enter_args_layout_and_id_witness :
    (⟨7, -1, [1, 2, 3, 4, 5, 6]⟩ : sys_enter_args).wf ∧
    toSigned 64 (toU64 (⟨7, -1, [1, 2, 3, 4, 5, 6]⟩ : sys_enter_args).id) =
      (⟨7, -1, [1, 2, 3, 4, 5, 6]⟩ : sys_enter_args).id :=
  have h : (⟨7, -1, [1, 2, 3, 4, 5, 6]⟩ : sys_enter_args).wf := by decide
  ⟨h, (sys_enter_args_layout_and_id ⟨1234 * 2 ^ 32 + 5, .ready⟩ ⟨7, -1, [1, 2, 3, 4, 5, 6]⟩
    (World.load [] [])).2.2.1 h⟩

/-! ## The metadata -/

/-- C9: `_license` is the bytes `G`, `P`, `L`, NUL and `_version` is
4294967294, a 32-bit value; one invocation leaves both sections as they
were, and after any number of invocations from the loaded world both still
hold their literals. -/
theorem metadata_constants_invariant (calls : List TraceCall) (pipe : List (List Char))
    (evs : List (Kernel × sys_enter_args)) (k : Kernel) (ctx : sys_enter_args)
    (w : World) :
    (_license = ['G', 'P', 'L', '\x00'] ∧ _license = "GPL".toList ++ ['\x00'] ∧
      _version = 4294967294 ∧ _version = 0xFFFFFFFE ∧ _version < 2 ^ 32) ∧
    ((on_sys_enter k ctx w).2.license = w.license ∧
      (on_sys_enter k ctx w).2.version = w.version) ∧
    ((run evs (World.load calls pipe)).license = ['G', 'P', 'L', '\x00'] ∧
      (run evs (World.load calls pipe)).version = 4294967294) := by
  refine ⟨by decide, on_sys_enter_sections k ctx w, ?_, ?_⟩
  · rw [(run_sections evs (World.load calls pipe)).1]
    rfl
  · rw [(run_sections evs (World.load calls pipe)).2]
    rfl

/-! ## The format buffer -/

/-- C10: in every invocation the buffer handed to `bpf_trace_printk` is the 30
characters of `process %d executed syscall %d` followed by one NUL, the
size argument is 31, the template length plus one, and the last byte within
that size is the NUL. -/
theorem format_buffer_and_size (k : Kernel) (ctx : sys_enter_args) (w : World) :
    (new_calls k ctx w).map (fun c => (c.fmt, c.fmt_size)) =
      [("process %d executed syscall %d".toList ++ ['\x00'], 31)] ∧
    "process %d executed syscall %d".length = 30 ∧
    ("process %d executed syscall %d".toList ++ ['\x00']).length = 31 ∧
    31 = "process %d executed syscall %d".length + 1 ∧
    ("process %d executed syscall %d".toList ++ ['\x00']).get? (31 - 1) = some '\x00' ∧
    ("process %d executed syscall %d".toList ++ ['\x00']).take 30 =
      "process %d executed syscall %d".toList ∧
    "process %d executed syscall %d".toList.all (fun c => c != '\x00') = true := by
  refine ⟨?_, by decide, by decide, by decide, by decide, by decide, by decide⟩
  rw [new_calls_eq]
  rfl

end Example
